import Mathlib

/-!
Verification of the order-lifecycle engine of the `magnet-custom` backend:
a shallow embedding of the data model (`model.py`) and of the operations in
`order.py`, `payment.py` and `custom_image.py`, together with theorems about
order creation, item mutation, cancellation, payment submission and
verification, image approval and the cleanup job.

Conventions of the embedding:
* Database rows are records in lists; a committed transaction is a new state,
  a raised-and-rolled-back request is `Except.error` (nothing is persisted).
* `db.Numeric(10,2)` money columns (exact `Decimal` arithmetic in Python; every
  such value is an integer count of hundredths) are `ℤ`, in units of 0.01, so
  `10.00` is `1000`; `db.Integer` columns (unbounded Python ints) are `ℤ`.
* Primary keys (`uuid4` strings in the source) are `Nat` drawn from a
  `nextId` counter; freshness of a uuid corresponds to the counter bound.
* External collaborators (JWT parsing, file storage, the request clock) enter
  as explicit arguments (`uid`, `imageUrl`, `now`).
-/

namespace Magnet

/-- `UserRole` enum from model.py lines 20-23. -/
inductive UserRole where
  | admin | customer | staff
  deriving Repr, DecidableEq

/-- `OrderStatus` enum from model.py lines 28-35.  Note: the enum defines no
`DRAFT` member even though order.py mentions a `'draft'` status in string
comparisons. -/
inductive OrderStatus where
  | pending | confirmed | processing | shipped | delivered | cancelled | returned
  deriving Repr, DecidableEq

/-- `PaymentStatus` enum from model.py lines 37-45.  Note: the enum defines no
`VERIFIED` and no `REJECTED` member even though payment.py refers to
`PaymentStatus.VERIFIED` / `PaymentStatus.REJECTED` throughout. -/
inductive PaymentStatus where
  | pending | completed | paid | failed | refunded | canceled | chargeback | on_hold
  deriving Repr, DecidableEq

/-- `ImageApprovalStatus` enum from model.py lines 46-49. -/
inductive ImageApprovalStatus where
  | pending | approved | rejected
  deriving Repr, DecidableEq

/-- Python enum lookup `OrderStatus(value)` (by value, used for parsing request
payloads); raises `ValueError` (here: `none`) on an unknown value.  The string
`"draft"` is not a value of the enum. -/
def OrderStatus.ofValue : String → Option OrderStatus
  | "pending" => some .pending
  | "confirmed" => some .confirmed
  | "processing" => some .processing
  | "shipped" => some .shipped
  | "delivered" => some .delivered
  | "cancelled" => some .cancelled
  | "returned" => some .returned
  | _ => none

/-- Python enum lookup `PaymentStatus(value)` by value: the eight values of
model.py lines 38-45.  `"verified"` and `"rejected"` are not values of the
enum, so `PaymentStatus("verified")` raises `ValueError` (here: `none`). -/
def PaymentStatus.ofValue : String → Option PaymentStatus
  | "pending" => some .pending
  | "completed" => some .completed
  | "paid" => some .paid
  | "failed" => some .failed
  | "refunded" => some .refunded
  | "canceled" => some .canceled
  | "chargeback" => some .chargeback
  | "on_hold" => some .on_hold
  | _ => none

/-- Python attribute access `PaymentStatus.<NAME>` on the enum class: the
member names defined in model.py lines 38-45.  Accessing any other name
(in particular `VERIFIED` or `REJECTED`, used by payment.py) raises
`AttributeError` (here: `none`). -/
def PaymentStatus.member : String → Option PaymentStatus
  | "PENDING" => some .pending
  | "COMPLETED" => some .completed
  | "PAID" => some .paid
  | "FAILED" => some .failed
  | "REFUNDED" => some .refunded
  | "CANCELED" => some .canceled
  | "CHARGEBACK" => some .chargeback
  | "ON_HOLD" => some .on_hold
  | _ => none

/-- Python's `str.lower()` on ASCII payload values (executable character
map, since the request statuses are plain ASCII words). -/
def lowerChar (c : Char) : Char :=
  if 'A' ≤ c ∧ c ≤ 'Z' then Char.ofNat (c.toNat + 32) else c

def pyLower (s : String) : String :=
  ⟨s.data.map lowerChar⟩

/-- `User` row (model.py lines 50-64), restricted to the columns the order
engine reads. -/
structure UserRec where
  id : Nat
  role : UserRole
  deriving Repr, DecidableEq

/-- `Product` row (model.py lines 132-145): `price` is `Numeric(10,2)`,
`quantity` is a plain `Integer` column (no database-side non-negativity
constraint). -/
structure Product where
  id : Nat
  price : ℤ
  quantity : ℤ
  is_active : Bool
  deriving Repr, DecidableEq

/-- `Order` row (model.py lines 213-229), restricted to the columns the
lifecycle engine reads and writes. -/
structure Order where
  id : Nat
  user_id : Option Nat
  order_number : Nat
  status : OrderStatus
  total_amount : ℤ
  customer_name : Option String
  customer_phone : Option String
  approved_by : Option Nat
  deriving Repr, DecidableEq

/-- `OrderItem` row (model.py lines 261-271). -/
structure OrderItem where
  id : Nat
  order_id : Nat
  product_id : Nat
  quantity : ℤ
  unit_price : ℤ
  total_price : ℤ
  deriving Repr, DecidableEq

/-- `Payment` row (model.py lines 293-302). -/
structure Payment where
  id : Nat
  order_id : Nat
  mpesa_code : String
  amount : ℤ
  status : PaymentStatus
  phone_number : String
  deriving Repr, DecidableEq

/-- `CustomImage` row (model.py lines 317-338).  `user_id` is declared
`nullable=False` in the model but has no default, so a `CustomImage`
constructed without a `user_id` argument carries `none`. -/
structure CustomImage where
  id : Nat
  order_item_id : Option Nat
  product_id : Option Nat
  user_id : Option Nat
  image_url : String
  image_name : Option String
  upload_date : Nat
  is_temporary : Bool
  approval_status : ImageApprovalStatus
  approved_by : Option Nat
  approval_date : Option Nat
  rejection_reason : Option String
  deriving Repr, DecidableEq

/-- The database state: one list per table, plus the fresh-id counter that
stands in for uuid generation. -/
structure DB where
  users : List UserRec
  products : List Product
  orders : List Order
  order_items : List OrderItem
  payments : List Payment
  images : List CustomImage
  nextId : Nat
  deriving Repr, DecidableEq

/-- `Product.query.get(pid)`. -/
def findProduct (db : DB) (pid : Nat) : Option Product :=
  db.products.find? (fun p => p.id == pid)

/-- `User.query.get(uid)`. -/
def findUser (db : DB) (uid : Nat) : Option UserRec :=
  db.users.find? (fun u => u.id == uid)

/-- The order lookup used by the order endpoints: admins fetch by primary key
(`Order.query.get`), other users only see their own orders
(`Order.query.filter_by(id=..., user_id=...)`). -/
def orderForUser (db : DB) (user : UserRec) (orderId : Nat) : Option Order :=
  if user.role = .admin then
    db.orders.find? (fun o => o.id == orderId)
  else
    db.orders.find? (fun o => o.id == orderId && o.user_id == some user.id)

/-- The `order.order_items` relationship: the items whose `order_id` points at
the order. -/
def orderItemsOf (db : DB) (orderId : Nat) : List OrderItem :=
  db.order_items.filter (fun it => it.order_id == orderId)

/-- The error kinds surfaced by the endpoints (each constructor stands for one
of the distinct error responses in the source; `internalError` is the generic
500 produced by the outer `except Exception` handler after a rollback). -/
inductive ApiError where
  | userNotFound
  | emptyOrderItems
  | productUnavailable (pid : Nat)
  | badQuantity
  | insufficientStock (pid : Nat)
  | orderNotFound
  | cannotModifyItemsStatus (st : OrderStatus)
  | cannotCancelStatus
  | onlyAdminsUpdateStatus
  | invalidStatusValue
  | cannotPayStatus
  | paymentAlreadyVerified
  | paymentAlreadyPending
  | invalidMpesaFormat
  | invalidPhoneFormat
  | onlyAdminsVerify
  | paymentNotFound
  | invalidVerifyStatus
  | onlyAdminsApprove
  | imageNotFound
  | productNotFound
  | orderItemNotFound
  | duplicateImage
  | internalError
  deriving Repr, DecidableEq

/-! ## Order creation (`OrderResource.post`, order.py lines 100-203) -/

/-- One entry of the request's `order_items` payload (`product_id` and
`quantity`, the latter already through Python's `int(...)`). -/
structure ItemSpec where
  product_id : Nat
  quantity : ℤ
  deriving Repr, DecidableEq

/-- One entry of `validated_items` (order.py lines 147-152): the snapshot
taken during the validation loop. -/
structure VItem where
  product_id : Nat
  quantity : ℤ
  unit_price : ℤ
  total_price : ℤ
  deriving Repr, DecidableEq

/-- The validation loop of `OrderResource.post` (order.py lines 129-152): for
each item, resolve the product, require it active, require `quantity > 0`,
require `product.quantity >= quantity`, and snapshot `unit_price` and the line
total.  No stock is mutated during validation, so every item is checked
against the unmodified product rows. -/
def validateItems (ps : List Product) : List ItemSpec → Except ApiError (List VItem)
  | [] => .ok []
  | s :: rest =>
    match ps.find? (fun p => p.id == s.product_id) with
    | none => .error (.productUnavailable s.product_id)
    | some p =>
      if p.is_active = false then .error (.productUnavailable s.product_id)
      else if s.quantity ≤ 0 then .error .badQuantity
      else if p.quantity < s.quantity then .error (.insufficientStock s.product_id)
      else
        match validateItems ps rest with
        | .error e => .error e
        | .ok vs => .ok (⟨p.id, s.quantity, p.price, p.price * s.quantity⟩ :: vs)

/-- `product.quantity += d` applied to the product row with the given id
(`-=` is `+ (-q)`). -/
def mapQuantity (ps : List Product) (pid : Nat) (d : ℤ) : List Product :=
  ps.map (fun p => if p.id == pid then { p with quantity := p.quantity + d } else p)

/-- The creation loop of `OrderResource.post` (order.py lines 177-189): for
each validated item, create the `OrderItem` row and decrement the product's
stock by the item quantity.  Fresh item ids are drawn from the counter. -/
def createItems (orderId : Nat) (startId : Nat) (vs : List VItem) (ps : List Product) :
    List OrderItem × List Product × Nat :=
  match vs with
  | [] => ([], ps, startId)
  | v :: rest =>
    let item : OrderItem :=
      { id := startId, order_id := orderId, product_id := v.product_id,
        quantity := v.quantity, unit_price := v.unit_price, total_price := v.total_price }
    let ps' := mapQuantity ps v.product_id (-v.quantity)
    let r := createItems orderId (startId + 1) rest ps'
    (item :: r.1, r.2.1, r.2.2)

/-- `total_amount += item_total` accumulation (order.py lines 126, 145). -/
def accumTotal (vs : List VItem) : ℤ :=
  vs.foldl (fun acc v => acc + v.total_price) 0

/-- `OrderResource.post` (order.py lines 100-203): validate every requested
item against the current product rows, then create the order (status
`PENDING`), create the items and decrement stock, and commit.  Any validation
failure returns before any row is touched. -/
def orderCreatePost (db : DB) (uid : Nat) (specs : List ItemSpec)
    (cname cphone : Option String) : Except ApiError (DB × Nat) :=
  match findUser db uid with
  | none => .error .userNotFound
  | some _ =>
    if specs.isEmpty then .error .emptyOrderItems
    else
      match validateItems db.products specs with
      | .error e => .error e
      | .ok vs =>
      let total := accumTotal vs
      let oid := db.nextId
      let order : Order :=
        { id := oid, user_id := some uid, order_number := oid, status := .pending,
          total_amount := total, customer_name := cname, customer_phone := cphone,
          approved_by := none }
      let r := createItems oid (oid + 1) vs db.products
      .ok ({ db with orders := order :: db.orders,
                     order_items := db.order_items ++ r.1,
                     products := r.2.1, nextId := r.2.2 }, oid)

/-! ## Item mutation (`OrderResource.patch`, order.py lines 269-362) -/

/-- A Python runtime value as it occurs in the status checks of order.py:
either a string literal or an `OrderStatus` enum member.  Python's `==` (and
hence `in`) between an enum member and a string is always `False`, because
`enum.Enum` keeps identity-based equality (model.py's `OrderStatus` has no
`str` mixin). -/
inductive PyVal where
  | pstr (s : String)
  | pstatus (s : OrderStatus)
  deriving Repr, DecidableEq

/-- Python `==` on the two kinds of values above. -/
def pyEq : PyVal → PyVal → Bool
  | .pstr a, .pstr b => a == b
  | .pstatus a, .pstatus b => a == b
  | _, _ => false

/-- The check `order.status not in ['draft', 'pending']` of order.py lines
221 and 285, written as the membership test Python evaluates: the enum-valued
`order.status` compared with `==` against the two string literals. -/
def statusInModifiableStrings (st : OrderStatus) : Bool :=
  [PyVal.pstr "draft", PyVal.pstr "pending"].any (fun v => pyEq (.pstatus st) v)

/-- The `order_items` / `order_item_ids` / `action` fields of a PATCH
payload. -/
structure PatchData where
  action : String
  order_items : List ItemSpec
  order_item_ids : List Nat
  deriving Repr, DecidableEq

/-- The `action == 'add'` loop of `OrderResource.patch` (order.py lines
295-331): validation and mutation are interleaved per item; a failure rolls
the uncommitted session back, so it surfaces as an error with no persisted
change. -/
def patchAddItems (orderId : Nat) (startId : Nat) (specs : List ItemSpec)
    (ps : List Product) : Except ApiError (List OrderItem × List Product × ℤ × Nat) :=
  match specs with
  | [] => .ok ([], ps, 0, startId)
  | s :: rest =>
    match ps.find? (fun p => p.id == s.product_id) with
    | none => .error (.productUnavailable s.product_id)
    | some p =>
      if p.is_active = false then .error (.productUnavailable s.product_id)
      else if s.quantity ≤ 0 then .error .badQuantity
      else if p.quantity < s.quantity then .error (.insufficientStock s.product_id)
      else
        let item : OrderItem :=
          { id := startId, order_id := orderId, product_id := p.id,
            quantity := s.quantity, unit_price := p.price,
            total_price := p.price * s.quantity }
        let ps' := mapQuantity ps p.id (-s.quantity)
        match patchAddItems orderId (startId + 1) rest ps' with
        | .error e => .error e
        | .ok r => .ok (item :: r.1, r.2.1, p.price * s.quantity + r.2.2.1, r.2.2.2)

/-- The `action == 'remove'` loop of `OrderResource.patch` (order.py lines
333-348): for each requested id, if the item belongs to the order, restore the
product quantity, subtract the line total, and delete the item; unknown ids
are skipped. -/
def patchRemoveItems (db : DB) (order : Order) (itemIds : List Nat) : DB × Order :=
  match itemIds with
  | [] => (db, order)
  | itemId :: rest =>
    match db.order_items.find? (fun it => it.id == itemId && it.order_id == order.id) with
    | none => patchRemoveItems db order rest
    | some item =>
      let db' : DB :=
        { db with
          products := mapQuantity db.products item.product_id item.quantity,
          order_items := db.order_items.filter (fun it => it.id != itemId) }
      patchRemoveItems db' { order with total_amount := order.total_amount - item.total_price } rest

/-- `OrderResource.patch` (order.py lines 269-362): fetch the caller's own
order, then gate on `order.status not in ['draft', 'pending']` — the
enum-against-string comparison — before any mutation. -/
def orderPatch (db : DB) (uid : Nat) (orderId : Nat) (data : PatchData) :
    Except ApiError (DB × Nat) :=
  match findUser db uid with
  | none => .error .userNotFound
  | some _ =>
    match db.orders.find? (fun o => o.id == orderId && o.user_id == some uid) with
    | none => .error .orderNotFound
    | some order =>
      if statusInModifiableStrings order.status = false then
        .error (.cannotModifyItemsStatus order.status)
      else if data.action == "add" then
        match patchAddItems order.id db.nextId data.order_items db.products with
        | .error e => .error e
        | .ok r =>
          let order' : Order := { order with total_amount := order.total_amount + r.2.2.1 }
          .ok ({ db with
                  orders := db.orders.map (fun o => if o.id == order.id then order' else o),
                  order_items := db.order_items ++ r.1,
                  products := r.2.1, nextId := r.2.2.2 }, order.id)
      else if data.action == "remove" then
        let (db', order') := patchRemoveItems db order data.order_item_ids
        .ok ({ db' with
                orders := db'.orders.map (fun o => if o.id == order.id then order' else o) },
             order.id)
      else
        .ok (db, order.id)

/-! ## Order cancellation (`OrderResource.delete`, order.py lines 436-476) -/

/-- `OrderResource.delete` (order.py lines 436-476): admins cancel any order,
owners their own; orders already `DELIVERED` or `CANCELLED` are rejected;
otherwise every item of the order restores its quantity to its product (when
the product still exists) and the order's status becomes `CANCELLED`. -/
def orderDelete (db : DB) (uid : Nat) (orderId : Nat) : Except ApiError DB :=
  match findUser db uid with
  | none => .error .userNotFound
  | some user =>
    match orderForUser db user orderId with
    | none => .error .orderNotFound
    | some order =>
      if order.status = .delivered ∨ order.status = .cancelled then
        .error .cannotCancelStatus
      else
        let ps' :=
          if order.status ≠ .cancelled then
            (orderItemsOf db order.id).foldl
              (fun ps it => mapQuantity ps it.product_id it.quantity) db.products
          else db.products
        .ok { db with
              products := ps',
              orders := db.orders.map
                (fun o => if o.id == order.id then { o with status := .cancelled } else o) }

/-! ## Admin status edits (`OrderStatusResource.put`, order.py lines 524-568) -/

/-- `OrderStatusResource.put` (order.py lines 527-568): admin-only; parses the
requested status by enum value, assigns it unconditionally (no terminal-state
check), and records `approved_by` when a `PENDING` order moves to `CONFIRMED`
or `PROCESSING`. -/
def orderStatusPut (db : DB) (uid : Nat) (orderId : Nat) (statusStr : String) :
    Except ApiError DB :=
  match findUser db uid with
  | none => .error .onlyAdminsUpdateStatus
  | some user =>
    if user.role ≠ .admin then .error .onlyAdminsUpdateStatus
    else
      match db.orders.find? (fun o => o.id == orderId) with
      | none => .error .orderNotFound
      | some order =>
        match OrderStatus.ofValue (pyLower statusStr) with
        | none => .error .invalidStatusValue
        | some newStatus =>
          let approved :=
            if (newStatus = .confirmed ∨ newStatus = .processing) ∧ order.status = .pending
            then some uid else order.approved_by
          .ok { db with
                orders := db.orders.map
                  (fun o => if o.id == order.id
                            then { o with status := newStatus, approved_by := approved }
                            else o) }

/-! ## Payment submission (`PaymentResource.post`, payment.py lines 102-176) -/

/-- The phone-format check of payment.py line 152. -/
def phoneFormatOk (phone : String) : Bool :=
  phone.startsWith "254" || phone.startsWith "+254" ||
    phone.startsWith "07" || phone.startsWith "01"

/-- The tail of `PaymentResource.post` (payment.py lines 147-171): format
checks, then creation of the `PENDING` payment row snapshotting the order
total. -/
def paymentSubmitCreate (db : DB) (order : Order) (mpesaCode phone : String) :
    Except ApiError (DB × Nat) :=
  if mpesaCode.length < 8 then .error .invalidMpesaFormat
  else if phoneFormatOk phone = false then .error .invalidPhoneFormat
  else
    let payment : Payment :=
      { id := db.nextId, order_id := order.id, mpesa_code := mpesaCode,
        amount := order.total_amount, status := .pending, phone_number := phone }
    .ok ({ db with payments := payment :: db.payments, nextId := db.nextId + 1 },
         payment.id)

/-- `PaymentResource.post` (payment.py lines 102-176): resolve the order,
reject `CANCELLED`/`DELIVERED` orders, then — when a payment already exists
for the order — evaluate `existing_payment.status == PaymentStatus.VERIFIED`
(line 142).  `PaymentStatus` has no member `VERIFIED`, so that attribute
access raises and the outer handler rolls back and returns the generic 500
(`internalError`).  The `PENDING` duplicate check on line 144 is only reached
after it. -/
def paymentPost (db : DB) (uid : Nat) (orderId : Nat) (mpesaCode phone : String) :
    Except ApiError (DB × Nat) :=
  match findUser db uid with
  | none => .error .userNotFound
  | some user =>
    match orderForUser db user orderId with
    | none => .error .orderNotFound
    | some order =>
      if order.status = .cancelled ∨ order.status = .delivered then
        .error .cannotPayStatus
      else
        match db.payments.find? (fun p => p.order_id == orderId) with
        | some existing =>
          match PaymentStatus.member "VERIFIED" with
          | none => .error .internalError
          | some verified =>
            if existing.status = verified then .error .paymentAlreadyVerified
            else
              match PaymentStatus.member "PENDING" with
              | none => .error .internalError
              | some pnd =>
                if existing.status = pnd then .error .paymentAlreadyPending
                else paymentSubmitCreate db order (mpesaCode.trim) (phone.trim)
        | none => paymentSubmitCreate db order (mpesaCode.trim) (phone.trim)

/-! ## Payment verification (`PaymentVerificationResource.put`, payment.py
lines 274-326) -/

/-- `PaymentVerificationResource.put` (payment.py lines 277-326): admin-only;
parses the payload status through `PaymentStatus(...)` by value — so
`"verified"` and `"rejected"` raise `ValueError` (line 320's 400) — and then
evaluates `new_status not in [PaymentStatus.VERIFIED, PaymentStatus.REJECTED]`
(line 299), whose attribute accesses raise and reach the outer handler
(`internalError`).  The order-confirmation block of lines 302-311 sits behind
those two failures. -/
def paymentVerifyPut (db : DB) (uid : Nat) (paymentId : Nat) (statusStr : String) :
    Except ApiError DB :=
  match findUser db uid with
  | none => .error .onlyAdminsVerify
  | some user =>
    if user.role ≠ .admin then .error .onlyAdminsVerify
    else
      match db.payments.find? (fun p => p.id == paymentId) with
      | none => .error .paymentNotFound
      | some payment =>
        match PaymentStatus.ofValue (pyLower statusStr) with
        | none => .error .invalidStatusValue
        | some newStatus =>
          match PaymentStatus.member "VERIFIED", PaymentStatus.member "REJECTED" with
          | some verified, some rejected =>
            if ¬(newStatus = verified ∨ newStatus = rejected) then
              .error .invalidVerifyStatus
            else
              let pays' := db.payments.map
                (fun p => if p.id == payment.id then { p with status := newStatus } else p)
              let db' : DB := { db with payments := pays' }
              if newStatus = verified then
                match db'.orders.find? (fun o => o.id == payment.order_id) with
                | some order =>
                  let os' := db'.orders.map
                    (fun o => if o.id == order.id
                              then { o with status := .confirmed, approved_by := some uid }
                              else o)
                  if order.status = .pending then .ok { db' with orders := os' }
                  else .ok db'
                | none => .ok db'
              else .ok db'
          | _, _ => .error .internalError

/-! ## Custom image upload (`CustomImageResource.post`, custom_image.py lines
175-280) -/

/-- The `CustomImage(...)` construction of custom_image.py lines 261-266: the
call passes `order_item_id`, `product_id`, `image_url` and `image_name` only.
No `user_id` is passed, and the column has no default, so the record carries
none; the remaining columns take their model.py defaults. -/
def newCustomImage (order_item_id : Option Nat) (product_id : Option Nat)
    (image_url : String) (image_name : Option String) (now : Nat) (freshId : Nat) :
    CustomImage :=
  { id := freshId, order_item_id := order_item_id, product_id := product_id,
    user_id := none, image_url := image_url, image_name := image_name,
    upload_date := now, is_temporary := false, approval_status := .pending,
    approved_by := none, approval_date := none, rejection_reason := none }

/-- The order-item lookup of custom_image.py lines 237-243: admins fetch by
primary key, other users only items joined to their own orders. -/
def orderItemForUser (db : DB) (user : UserRec) (orderItemId : Nat) : Option OrderItem :=
  if user.role = .admin then
    db.order_items.find? (fun it => it.id == orderItemId)
  else
    db.order_items.find? (fun it =>
      it.id == orderItemId &&
      (db.orders.find? (fun o => o.id == it.order_id && o.user_id == some user.id)).isSome)

/-- `CustomImageResource.post` (custom_image.py lines 175-280) from the point
where the file has been stored (file handling is the external storage
collaborator; `imageUrl`/`imageName` are its results): resolve the order item
(admins any, owners their own), reject a duplicate image on the same item,
validate `product_id` when supplied, and insert the record built by
`newCustomImage`. -/
def imageUploadPost (db : DB) (uid : Nat) (orderItemId : Nat)
    (productIdOpt : Option Nat) (imageUrl : String) (imageName : String) (now : Nat) :
    Except ApiError (DB × Nat) :=
  match findUser db uid with
  | none => .error .userNotFound
  | some user =>
    match orderItemForUser db user orderItemId with
    | none => .error .orderItemNotFound
    | some _ =>
      match db.images.find? (fun im => im.order_item_id == some orderItemId) with
      | some _ => .error .duplicateImage
      | none =>
        match productIdOpt with
        | some pid =>
          match findProduct db pid with
          | none => .error .productNotFound
          | some _ =>
            let img := newCustomImage (some orderItemId) (some pid) imageUrl (some imageName)
              now db.nextId
            .ok ({ db with images := img :: db.images, nextId := db.nextId + 1 }, img.id)
        | none =>
          let img := newCustomImage (some orderItemId) none imageUrl (some imageName)
            now db.nextId
          .ok ({ db with images := img :: db.images, nextId := db.nextId + 1 }, img.id)

/-! ## Custom image approval (`CustomImageApprovalResource.put`,
custom_image.py lines 417-465) -/

/-- `CustomImageApprovalResource.put` (custom_image.py lines 420-465):
admin-only; when the payload carries a `product_id`, a non-null value must
name an existing product and is bound to the image (a null value unbinds it);
an `image_name` may be updated.  The handler commits and reports success; the
`approval_status`, `approved_by` and `approval_date` columns are never
written. -/
def imageApprovePut (db : DB) (uid : Nat) (imageId : Nat)
    (productField : Option (Option Nat)) (nameField : Option String) :
    Except ApiError DB :=
  match findUser db uid with
  | none => .error .onlyAdminsApprove
  | some user =>
    if user.role ≠ .admin then .error .onlyAdminsApprove
    else
      match db.images.find? (fun im => im.id == imageId) with
      | none => .error .imageNotFound
      | some img =>
        let step1 : Except ApiError CustomImage :=
          match productField with
          | some (some pid) =>
            match findProduct db pid with
            | none => .error .productNotFound
            | some _ => .ok { img with product_id := some pid }
          | some none => .ok { img with product_id := none }
          | none => .ok img
        match step1 with
        | .error e => .error e
        | .ok img1 =>
          let img2 :=
            match nameField with
            | some nm => { img1 with image_name := some nm }
            | none => img1
          let imgs' := db.images.map (fun im => if im.id == img.id then img2 else im)
          .ok { db with images := imgs' }

/-! ## Abandoned-upload cleanup -/

/-- Modelled from the spec: the repository has no `cleanup_abandoned`
implementation under `src/` (the spec describes it as a batch job of the
Custom Image Approval Workflow).  Following the spec's words: it selects all
images still `pending` whose `upload_date` is older than the retention
window and deletes their database rows (and their stored artifacts, which
live with the external storage collaborator).  Time is counted in days. -/
def cleanupAbandoned (db : DB) (today : Nat) (retentionDays : Nat) : DB :=
  let keep := fun (im : CustomImage) =>
    ¬(im.approval_status = .pending ∧ today - im.upload_date > retentionDays)
  { db with images := db.images.filter (fun im => keep im) }

/-! ## Basic lemmas about the primitives of the embedding -/

/-- Updating one product's quantity commutes with keyed lookup: the lookup
finds the same row, with the update applied when the keys match. -/
theorem mapQuantity_find? (ps : List Product) (pid' : Nat) (d : ℤ) (pid : Nat) :
    (mapQuantity ps pid' d).find? (fun p => p.id == pid) =
      (ps.find? (fun p => p.id == pid)).map
        (fun p => if p.id == pid' then { p with quantity := p.quantity + d } else p) := by
  unfold mapQuantity
  have hpred : ((fun p : Product => p.id == pid) ∘
      fun p => if p.id == pid' then { p with quantity := p.quantity + d } else p) =
      fun p : Product => p.id == pid := by
    funext p
    by_cases h : p.id == pid' <;> simp [Function.comp, h]
  rw [List.find?_map, hpred]

/-- Folding per-element quantity updates over a list of rows: a keyed lookup
afterwards sees the original row with the summed delta of the matching
elements applied. -/
theorem foldl_mapQuantity_find? {α : Type} (f : α → Nat) (g : α → ℤ) (pid : Nat) :
    ∀ (l : List α) (ps : List Product),
      ((l.foldl (fun acc a => mapQuantity acc (f a) (g a)) ps).find? (fun p => p.id == pid)) =
        (ps.find? (fun p => p.id == pid)).map
          (fun p => { p with
            quantity := p.quantity + ((l.filter (fun a => f a == pid)).map g).sum })
  | [], ps => by
    simp only [List.foldl_nil, List.filter_nil, List.map_nil, List.sum_nil, add_zero]
    cases hf : ps.find? (fun p => p.id == pid) with
    | none => rfl
    | some p => rfl
  | a :: l, ps => by
    rw [List.foldl_cons, foldl_mapQuantity_find? f g pid l, mapQuantity_find?, Option.map_map]
    cases hf : ps.find? (fun p => p.id == pid) with
    | none => rfl
    | some p =>
      have hid : p.id = pid := by simpa using List.find?_some hf
      by_cases hfa : f a = pid
      · subst hfa
        cases p with
        | mk i pr q act =>
          simp only at hid
          subst hid
          simp [List.filter_cons, Function.comp, add_assoc]
      · cases p with
        | mk i pr q act =>
          simp only at hid
          subst hid
          simp [List.filter_cons, Function.comp, hfa, Ne.symm hfa]

/-- `accumTotal` is the sum of the line totals. -/
theorem foldl_add_total : ∀ (vs : List VItem) (acc : ℤ),
    vs.foldl (fun a v => a + v.total_price) acc = acc + (vs.map (fun v => v.total_price)).sum
  | [], acc => by simp
  | v :: vs, acc => by
    rw [List.foldl_cons, foldl_add_total vs]
    simp [add_assoc]

theorem accumTotal_eq (vs : List VItem) :
    accumTotal vs = (vs.map (fun v => v.total_price)).sum := by
  unfold accumTotal
  rw [foldl_add_total]
  simp

/-- The product rows produced by the creation loop are the fold of the
per-item stock decrements. -/
theorem createItems_products (oid : Nat) :
    ∀ (vs : List VItem) (n : Nat) (ps : List Product),
      (createItems oid n vs ps).2.1 =
        vs.foldl (fun acc v => mapQuantity acc v.product_id (-v.quantity)) ps
  | [], _, _ => rfl
  | v :: vs, n, ps => by
    simp [createItems, createItems_products oid vs]

/-- Every row built by the creation loop belongs to the order and copies its
validated item's snapshot fields. -/
theorem createItems_mem (oid : Nat) :
    ∀ (vs : List VItem) (n : Nat) (ps : List Product),
      ∀ it ∈ (createItems oid n vs ps).1,
        it.order_id = oid ∧ ∃ v ∈ vs, it.product_id = v.product_id ∧
          it.quantity = v.quantity ∧ it.unit_price = v.unit_price ∧
          it.total_price = v.total_price
  | [], _, _ => by intro it hit; simp [createItems] at hit
  | v :: vs, n, ps => by
    intro it hit
    simp only [createItems, List.mem_cons] at hit
    rcases hit with h | h
    · subst h
      exact ⟨rfl, v, by simp⟩
    · obtain ⟨hoid, v', hv', hrest⟩ := createItems_mem oid vs (n + 1) _ it h
      exact ⟨hoid, v', List.mem_cons_of_mem v hv', hrest⟩

/-- The creation loop builds one row per validated item, in order, with the
line totals preserved. -/
theorem createItems_map_total (oid : Nat) :
    ∀ (vs : List VItem) (n : Nat) (ps : List Product),
      (createItems oid n vs ps).1.map (fun it => it.total_price) =
        vs.map (fun v => v.total_price)
  | [], _, _ => rfl
  | v :: vs, n, ps => by
    simp [createItems, createItems_map_total oid vs]

theorem createItems_length (oid : Nat) :
    ∀ (vs : List VItem) (n : Nat) (ps : List Product),
      (createItems oid n vs ps).1.length = vs.length
  | [], _, _ => rfl
  | v :: vs, n, ps => by
    simp [createItems, createItems_length oid vs]

/-- Every snapshot taken by the validation loop of `OrderResource.post` comes
from a product row found in the unmodified table, with `unit_price` the
product's current price, a positive quantity, and enough stock at the moment
of the (stale) read. -/
theorem validateItems_ok_mem (ps : List Product) :
    ∀ (specs : List ItemSpec) (vs : List VItem), validateItems ps specs = .ok vs →
      ∀ v ∈ vs, ∃ p, ps.find? (fun q => q.id == v.product_id) = some p ∧
        v.unit_price = p.price ∧ v.total_price = p.price * v.quantity ∧
        0 < v.quantity ∧ v.quantity ≤ p.quantity ∧ p.is_active = true
  | [], vs, h => by
    simp only [validateItems, Except.ok.injEq] at h
    subst h
    intro v hv
    simp at hv
  | s :: specs, vs, h => by
    simp only [validateItems] at h
    cases hfind : ps.find? (fun p => p.id == s.product_id) with
    | none =>
      rw [hfind] at h
      exact Except.noConfusion h
    | some p =>
      rw [hfind] at h
      dsimp only at h
      by_cases hact : p.is_active = false
      · rw [if_pos hact] at h; exact Except.noConfusion h
      rw [if_neg hact] at h
      by_cases hq : s.quantity ≤ 0
      · rw [if_pos hq] at h; exact Except.noConfusion h
      rw [if_neg hq] at h
      by_cases hs : p.quantity < s.quantity
      · rw [if_pos hs] at h; exact Except.noConfusion h
      rw [if_neg hs] at h
      cases hrest : validateItems ps specs with
      | error e =>
        rw [hrest] at h
        exact Except.noConfusion h
      | ok vs' =>
        rw [hrest] at h
        dsimp only at h
        cases h
        intro v hv
        rcases List.mem_cons.1 hv with hv | hv
        · subst hv
          refine ⟨p, ?_, rfl, rfl, by dsimp only; omega, by dsimp only; omega,
            by simpa using hact⟩
          have : p.id = s.product_id := by simpa using List.find?_some hfind
          simpa [this] using hfind
        · exact validateItems_ok_mem ps specs vs' hrest v hv

/-- The validation loop preserves, per product, the summed requested
quantity. -/
theorem validateItems_ok_reserved (ps : List Product) :
    ∀ (specs : List ItemSpec) (vs : List VItem), validateItems ps specs = .ok vs →
      ∀ pid, ((vs.filter (fun v => v.product_id == pid)).map (fun v => v.quantity)).sum =
        ((specs.filter (fun s => s.product_id == pid)).map (fun s => s.quantity)).sum
  | [], vs, h => by
    simp only [validateItems, Except.ok.injEq] at h
    subst h
    intro pid
    rfl
  | s :: specs, vs, h => by
    simp only [validateItems] at h
    cases hfind : ps.find? (fun p => p.id == s.product_id) with
    | none =>
      rw [hfind] at h
      exact Except.noConfusion h
    | some p =>
      rw [hfind] at h
      dsimp only at h
      by_cases hact : p.is_active = false
      · rw [if_pos hact] at h; exact Except.noConfusion h
      rw [if_neg hact] at h
      by_cases hq : s.quantity ≤ 0
      · rw [if_pos hq] at h; exact Except.noConfusion h
      rw [if_neg hq] at h
      by_cases hs : p.quantity < s.quantity
      · rw [if_pos hs] at h; exact Except.noConfusion h
      rw [if_neg hs] at h
      cases hrest : validateItems ps specs with
      | error e =>
        rw [hrest] at h
        exact Except.noConfusion h
      | ok vs' =>
        rw [hrest] at h
        dsimp only at h
        cases h
        intro pid
        have hpid : p.id = s.product_id := by simpa using List.find?_some hfind
        have ih := validateItems_ok_reserved ps specs vs' hrest pid
        by_cases hmatch : s.product_id = pid
        · simp [List.filter_cons, hpid, hmatch, ih]
        · simp [List.filter_cons, hpid, hmatch, ih]

theorem validateItems_ok_length (ps : List Product) :
    ∀ (specs : List ItemSpec) (vs : List VItem), validateItems ps specs = .ok vs →
      vs.length = specs.length
  | [], vs, h => by
    simp only [validateItems, Except.ok.injEq] at h
    subst h
    rfl
  | s :: specs, vs, h => by
    simp only [validateItems] at h
    cases hfind : ps.find? (fun p => p.id == s.product_id) with
    | none =>
      rw [hfind] at h
      exact Except.noConfusion h
    | some p =>
      rw [hfind] at h
      dsimp only at h
      by_cases hact : p.is_active = false
      · rw [if_pos hact] at h; exact Except.noConfusion h
      rw [if_neg hact] at h
      by_cases hq : s.quantity ≤ 0
      · rw [if_pos hq] at h; exact Except.noConfusion h
      rw [if_neg hq] at h
      by_cases hs : p.quantity < s.quantity
      · rw [if_pos hs] at h; exact Except.noConfusion h
      rw [if_neg hs] at h
      cases hrest : validateItems ps specs with
      | error e =>
        rw [hrest] at h
        exact Except.noConfusion h
      | ok vs' =>
        rw [hrest] at h
        dsimp only at h
        cases h
        simpa using validateItems_ok_length ps specs vs' hrest

theorem sum_map_neg {α : Type} (l : List α) (f : α → ℤ) :
    (l.map (fun a => -f a)).sum = -((l.map f).sum) := by
  induction l with
  | nil => simp
  | cons a l ih => simp [List.map_cons, List.sum_cons, ih, neg_add, add_comm]

/-! ## Claim C2: order creation is all-or-nothing with a total and stock
postcondition -/

/-- The total quantity a creation request asks for, per product. -/
def requestedQty (specs : List ItemSpec) (pid : Nat) : ℤ :=
  ((specs.filter (fun s => s.product_id == pid)).map (fun s => s.quantity)).sum

/-- The sum of `quantity * unit_price` over a list of order items. -/
def lineTotalSum (items : List OrderItem) : ℤ :=
  (items.map (fun it => it.quantity * it.unit_price)).sum

/-- The success postcondition of `OrderResource.post`: the new order is
recorded `pending` with `total_amount` the sum of its items' line totals, one
item exists per requested spec, each item's `unit_price` is snapshotted from
the product's price at creation with a positive quantity, and every product's
stock is decremented by exactly the requested quantity. -/
def CreatePostSpec (db db' : DB) (specs : List ItemSpec) (oid : Nat) : Prop :=
  ((db'.orders.find? (fun o => o.id == oid)).map (fun o => (o.status, o.total_amount)) =
      some (OrderStatus.pending, lineTotalSum (orderItemsOf db' oid))) ∧
  (orderItemsOf db' oid).length = specs.length ∧
  (∀ it ∈ orderItemsOf db' oid, ∃ p, findProduct db it.product_id = some p ∧
      it.unit_price = p.price ∧ 0 < it.quantity ∧
      it.total_price = it.quantity * it.unit_price) ∧
  (∀ pid, findProduct db' pid = (findProduct db pid).map
      (fun p => { p with quantity := p.quantity - requestedQty specs pid }))

/-- C2: order creation is all-or-nothing with a total/stock postcondition.
Every validation failure (missing or inactive product, non-positive quantity,
insufficient stock) is detected before any row is touched and surfaces as
`Except.error` — the rolled-back transaction persists nothing — and on
success the order, its items, the snapshotted prices, the total and the stock
decrements are exactly as `CreatePostSpec` states. -/
theorem orderCreate_all_or_nothing (db : DB) (uid : Nat) (specs : List ItemSpec)
    (cname cphone : Option String) (db' : DB) (oid : Nat)
    (hfresh : ∀ it ∈ db.order_items, it.order_id ≠ db.nextId)
    (h : orderCreatePost db uid specs cname cphone = .ok (db', oid)) :
    CreatePostSpec db db' specs oid := by
  unfold orderCreatePost at h
  cases hu : findUser db uid with
  | none => rw [hu] at h; exact Except.noConfusion h
  | some u =>
    rw [hu] at h
    dsimp only at h
    by_cases hempty : specs.isEmpty
    · rw [if_pos hempty] at h; exact Except.noConfusion h
    rw [if_neg hempty] at h
    cases hv : validateItems db.products specs with
    | error e => rw [hv] at h; exact Except.noConfusion h
    | ok vs =>
      rw [hv] at h
      dsimp only at h
      cases h
      have hitems : orderItemsOf
          { db with
            orders :=
              ({ id := db.nextId, user_id := some uid, order_number := db.nextId,
                 status := .pending, total_amount := accumTotal vs, customer_name := cname,
                 customer_phone := cphone, approved_by := none } : Order) :: db.orders,
            order_items := db.order_items ++ (createItems db.nextId (db.nextId + 1) vs db.products).1,
            products := (createItems db.nextId (db.nextId + 1) vs db.products).2.1,
            nextId := (createItems db.nextId (db.nextId + 1) vs db.products).2.2 } db.nextId =
          (createItems db.nextId (db.nextId + 1) vs db.products).1 := by
        unfold orderItemsOf
        dsimp only
        rw [List.filter_append]
        have h1 : db.order_items.filter (fun it => it.order_id == db.nextId) = [] :=
          List.filter_eq_nil_iff.2 (fun it hit => by simpa using hfresh it hit)
        have h2 : (createItems db.nextId (db.nextId + 1) vs db.products).1.filter
            (fun it => it.order_id == db.nextId) =
            (createItems db.nextId (db.nextId + 1) vs db.products).1 :=
          List.filter_eq_self.2 (fun it hit => by
            simpa using (createItems_mem db.nextId vs (db.nextId + 1) db.products it hit).1)
        rw [h1, h2, List.nil_append]
      have hline : lineTotalSum (createItems db.nextId (db.nextId + 1) vs db.products).1 =
          accumTotal vs := by
        unfold lineTotalSum
        have hcongr : (createItems db.nextId (db.nextId + 1) vs db.products).1.map
            (fun it => it.quantity * it.unit_price) =
            (createItems db.nextId (db.nextId + 1) vs db.products).1.map
              (fun it => it.total_price) := by
          apply List.map_congr_left
          intro it hit
          obtain ⟨_, v, hvmem, hpid, hq, hup, ht⟩ :=
            createItems_mem db.nextId vs (db.nextId + 1) db.products it hit
          obtain ⟨p, _, hup', htp, _, _, _⟩ :=
            validateItems_ok_mem db.products specs vs hv v hvmem
          rw [hq, hup, ht, htp, hup']
          ring
        rw [hcongr, createItems_map_total, accumTotal_eq]
      refine ⟨?_, ?_, ?_, ?_⟩
      · rw [hitems, hline]
        simp
      · rw [hitems, createItems_length]
        exact validateItems_ok_length db.products specs vs hv
      · rw [hitems]
        intro it hit
        obtain ⟨_, v, hvmem, hpid, hq, hup, ht⟩ :=
          createItems_mem db.nextId vs (db.nextId + 1) db.products it hit
        obtain ⟨p, hfnd, hup', htp, hpos, _, _⟩ :=
          validateItems_ok_mem db.products specs vs hv v hvmem
        refine ⟨p, ?_, by rw [hup, hup'], by rw [hq]; exact hpos, ?_⟩
        · unfold findProduct
          rw [hpid]
          exact hfnd
        · rw [ht, htp, hup, hup', hq]
          ring
      · intro pid
        unfold findProduct
        dsimp only
        rw [createItems_products, foldl_mapQuantity_find?]
        have hres := validateItems_ok_reserved db.products specs vs hv pid
        cases hp : db.products.find? (fun p => p.id == pid) with
        | none => rfl
        | some p =>
          dsimp only [Option.map]
          congr 1
          have hsum : ((vs.filter (fun v => v.product_id == pid)).map
              (fun v => -v.quantity)).sum = -(requestedQty specs pid) := by
            have : ((vs.filter (fun v => v.product_id == pid)).map
                (fun v => -v.quantity)).sum =
                -(((vs.filter (fun v => v.product_id == pid)).map
                  (fun v => v.quantity)).sum) := sum_map_neg _ _
            rw [this, hres]
            rfl
          rw [hsum]
          cases p
          simp [sub_eq_add_neg]

instance {ε α : Type} [DecidableEq ε] [DecidableEq α] : DecidableEq (Except ε α)
  | .error e, .error e' =>
    if h : e = e' then .isTrue (by rw [h]) else .isFalse (by intro hc; cases hc; exact h rfl)
  | .error _, .ok _ => .isFalse (by intro hc; cases hc)
  | .ok _, .error _ => .isFalse (by intro hc; cases hc)
  | .ok a, .ok a' =>
    if h : a = a' then .isTrue (by rw [h]) else .isFalse (by intro hc; cases hc; exact h rfl)

/-- The spec's creation scenario: one customer, one active product with
stock 5 priced 1000 (= 10.00). -/
def c2db : DB :=
  { users := [⟨1, .customer⟩], products := [⟨100, 1000, 5, true⟩],
    orders := [], order_items := [], payments := [], images := [], nextId := 200 }

/-- The state after creating an order with one item `(product 100, qty 3)` on
`c2db`: total 3000 (= 30.00), stock 2. -/
def c2db' : DB :=
  { users := [⟨1, .customer⟩], products := [⟨100, 1000, 2, true⟩],
    orders := [⟨200, some 1, 200, .pending, 3000, none, none, none⟩],
    order_items := [⟨201, 200, 100, 3, 1000, 3000⟩],
    payments := [], images := [], nextId := 202 }

/-- Witness for C2, at the spec's scenario: the creation succeeds with
`total_amount = 30.00` and the product's stock left at 2, and the
postcondition holds there. -/
theorem orderCreate_all_or_nothing_witness :
    (∀ it ∈ c2db.order_items, it.order_id ≠ c2db.nextId) ∧
    orderCreatePost c2db 1 [⟨100, 3⟩] none none = .ok (c2db', 200) ∧
    (c2db'.orders.map (fun o => o.total_amount) = [3000] ∧
      findProduct c2db' 100 = some ⟨100, 1000, 2, true⟩) ∧
    CreatePostSpec c2db c2db' [⟨100, 3⟩] 200 :=
  ⟨by decide, by decide, ⟨by decide, by decide⟩,
    orderCreate_all_or_nothing c2db 1 [⟨100, 3⟩] none none c2db' 200
      (by decide) (by decide)⟩

/-! ## Claim C4: stock conservation fails — a single creation request that
names the same product twice passes validation against the stale stock read
and drives the quantity negative -/

/-- The state after creating an order with items
`[(product 100, qty 3), (product 100, qty 3)]` on `c2db` (stock 5): both
items validate against the un-decremented stock of 5, so the order is created
and the product's quantity ends at `-1`. -/
def c4db' : DB :=
  { users := [⟨1, .customer⟩], products := [⟨100, 1000, -1, true⟩],
    orders := [⟨200, some 1, 200, .pending, 6000, none, none, none⟩],
    order_items := [⟨201, 200, 100, 3, 1000, 3000⟩, ⟨202, 200, 100, 3, 1000, 3000⟩],
    payments := [], images := [], nextId := 203 }

/-- C4 fails on the code: `OrderResource.post` validates every requested item
against the product rows as they stood before the request, so a batch that
lists the same product twice (stock 5, qty 3 + qty 3) passes validation and
the two decrements leave `quantity = -1 < 0`; no `InsufficientStock` error is
raised for the second reservation. -/
theorem orderCreate_stock_goes_negative :
    orderCreatePost c2db 1 [⟨100, 3⟩, ⟨100, 3⟩] none none = .ok (c4db', 200) ∧
    (findProduct c4db' 100).map (fun p => p.quantity) = some (-1) ∧
    ((-1 : ℤ) < 0) :=
  ⟨by decide, by decide, by decide⟩

/-! ## Claim C3: the modifiability gate of `OrderResource.patch` -/

/-- The membership test `order.status not in ['draft', 'pending']` compares an
enum member against strings, so it never matches: the guard rejects every
order status, `pending` included. -/
theorem statusInModifiableStrings_false (st : OrderStatus) :
    statusInModifiableStrings st = false := by
  cases st <;> rfl

/-- C3 fails on the code: for every authenticated owner and every order of
theirs — whatever its status, `pending` included — `OrderResource.patch`
answers the modifiability error before any state change, because the guard
compares the `OrderStatus` enum against the strings `'draft'`/`'pending'`
(always unequal in Python).  Item mutation is never permitted. -/
theorem orderPatch_always_locked (db : DB) (uid orderId : Nat) (data : PatchData)
    (u : UserRec) (order : Order)
    (hu : findUser db uid = some u)
    (ho : db.orders.find? (fun o => o.id == orderId && o.user_id == some uid) = some order) :
    orderPatch db uid orderId data = .error (.cannotModifyItemsStatus order.status) := by
  unfold orderPatch
  rw [hu]
  dsimp only
  rw [ho]
  dsimp only
  rw [statusInModifiableStrings_false]
  rfl

def c3order : Order := ⟨10, some 1, 10, .pending, 0, none, none, none⟩

def c3db : DB :=
  { users := [⟨1, .customer⟩], products := [⟨100, 1000, 5, true⟩],
    orders := [c3order], order_items := [], payments := [], images := [], nextId := 50 }

/-- Witness for C3's failure: a `pending` order whose owner adds one valid
in-stock item is still rejected. -/
theorem orderPatch_always_locked_witness :
    findUser c3db 1 = some ⟨1, .customer⟩ ∧
    c3db.orders.find? (fun o => o.id == 10 && o.user_id == some 1) = some c3order ∧
    orderPatch c3db 1 10 ⟨"add", [⟨100, 1⟩], []⟩ =
      .error (.cannotModifyItemsStatus .pending) :=
  ⟨by decide, by decide,
    orderPatch_always_locked c3db 1 10 ⟨"add", [⟨100, 1⟩], []⟩ ⟨1, .customer⟩ c3order
      (by decide) (by decide)⟩

/-! ## Claim C5: cancellation restocks every live item -/

/-- The quantity returned to product `pid` when order `orderId` is cancelled:
the summed quantities of the order's items that reference it. -/
def restockQty (db : DB) (orderId pid : Nat) : ℤ :=
  (((orderItemsOf db orderId).filter (fun it => it.product_id == pid)).map
    (fun it => it.quantity)).sum

/-- C5: cancelling an order that is neither `delivered` nor already
`cancelled` succeeds, marks the order `cancelled`, and increases every
product's quantity by the summed quantities of the order's live items that
reference it. -/
theorem orderCancel_restocks (db : DB) (uid orderId : Nat) (user : UserRec) (order : Order)
    (hu : findUser db uid = some user)
    (ho : orderForUser db user orderId = some order)
    (hst : ¬(order.status = .delivered ∨ order.status = .cancelled)) :
    ∃ db', orderDelete db uid orderId = .ok db' ∧
      { order with status := OrderStatus.cancelled } ∈ db'.orders ∧
      ∀ pid, findProduct db' pid = (findProduct db pid).map
        (fun p => { p with quantity := p.quantity + restockQty db order.id pid }) := by
  have hmem : order ∈ db.orders := by
    unfold orderForUser at ho
    by_cases hr : user.role = .admin
    · rw [if_pos hr] at ho; exact List.mem_of_find?_eq_some ho
    · rw [if_neg hr] at ho; exact List.mem_of_find?_eq_some ho
  have hne : order.status ≠ .cancelled := fun hc => hst (Or.inr hc)
  unfold orderDelete
  rw [hu]
  dsimp only
  rw [ho]
  dsimp only
  rw [if_neg hst, if_pos hne]
  refine ⟨_, rfl, ?_, ?_⟩
  · have := List.mem_map_of_mem
      (f := fun o => if o.id == order.id then { o with status := OrderStatus.cancelled } else o)
      hmem
    simpa using this
  · intro pid
    unfold findProduct
    dsimp only
    rw [foldl_mapQuantity_find?]
    rfl

def c5orderA : Order := ⟨10, some 1, 10, .pending, 2500, none, none, none⟩

/-- The spec's cancellation scenario: a pending order with items
`(productA, qty 2)` and `(productB, qty 1)`. -/
def c5db : DB :=
  { users := [⟨1, .customer⟩],
    products := [⟨100, 1000, 3, true⟩, ⟨101, 500, 7, true⟩],
    orders := [c5orderA],
    order_items := [⟨20, 10, 100, 2, 1000, 2000⟩, ⟨21, 10, 101, 1, 500, 500⟩],
    payments := [], images := [], nextId := 50 }

/-- Witness for C5 at the spec's scenario: cancelling the pending order
restores productA's quantity by 2 (3 → 5) and productB's by 1 (7 → 8). -/
theorem orderCancel_restocks_witness :
    (findUser c5db 1 = some ⟨1, .customer⟩ ∧
      orderForUser c5db ⟨1, .customer⟩ 10 = some c5orderA ∧
      ¬(c5orderA.status = .delivered ∨ c5orderA.status = .cancelled)) ∧
    (∃ db', orderDelete c5db 1 10 = .ok db' ∧
      { c5orderA with status := OrderStatus.cancelled } ∈ db'.orders ∧
      ∀ pid, findProduct db' pid = (findProduct c5db pid).map
        (fun p => { p with quantity := p.quantity + restockQty c5db c5orderA.id pid })) ∧
    restockQty c5db 10 100 = 2 ∧ restockQty c5db 10 101 = 1 :=
  ⟨⟨by decide, by decide, by decide⟩,
    orderCancel_restocks c5db 1 10 ⟨1, .customer⟩ c5orderA (by decide) (by decide) (by decide),
    by decide, by decide⟩

/-! ## Claim C7: terminal order states are not absorbing for admin status
edits -/

def c7order : Order := ⟨10, some 1, 10, .delivered, 3000, none, none, none⟩

def c7db : DB :=
  { users := [⟨1, .customer⟩, ⟨9, .admin⟩], products := [], orders := [c7order],
    order_items := [], payments := [], images := [], nextId := 50 }

/-- C7 fails on the code: `OrderStatusResource.put` carries no terminal-state
check, so an admin's status edit on a `delivered` order is accepted and
changes the status (here back to `pending`). -/
theorem orderStatus_terminal_edit_accepted :
    c7order.status = .delivered ∧
    orderStatusPut c7db 9 10 "pending" =
      .ok { c7db with orders := [{ c7order with status := .pending }] } :=
  ⟨by decide, by decide⟩

/-- C7 amended: for an order in a terminal state (`delivered` or
`cancelled`), cancellation is rejected with the locked-order error, but an
admin status edit through the status endpoint is accepted and overwrites the
status. -/
theorem orderTerminal_cancel_rejected_admin_edit_accepted (db : DB) (uid orderId : Nat)
    (user : UserRec) (order : Order) (st : OrderStatus) (s : String)
    (hu : findUser db uid = some user) (hadmin : user.role = .admin)
    (ho : db.orders.find? (fun o => o.id == orderId) = some order)
    (hterm : order.status = .delivered ∨ order.status = .cancelled)
    (hs : OrderStatus.ofValue (pyLower s) = some st) :
    orderDelete db uid orderId = .error .cannotCancelStatus ∧
    ∃ db', orderStatusPut db uid orderId s = .ok db' ∧
      { order with status := st } ∈ db'.orders := by
  have hmem : order ∈ db.orders := List.mem_of_find?_eq_some ho
  constructor
  · unfold orderDelete
    rw [hu]
    dsimp only
    unfold orderForUser
    rw [if_pos hadmin, ho]
    dsimp only
    rw [if_pos hterm]
  · unfold orderStatusPut
    rw [hu]
    dsimp only
    have hr : ¬(user.role ≠ UserRole.admin) := by simp [hadmin]
    rw [if_neg hr, ho]
    dsimp only
    rw [hs]
    dsimp only
    have happ : ¬((st = .confirmed ∨ st = .processing) ∧ order.status = .pending) := by
      rcases hterm with h | h <;> simp [h]
    rw [if_neg happ]
    refine ⟨_, rfl, ?_⟩
    have := List.mem_map_of_mem
      (f := fun o => if o.id == order.id
        then { o with status := st, approved_by := order.approved_by } else o)
      hmem
    simpa using this

/-- Witness for the amended C7: on the delivered order of `c7db`, the cancel
request errors while the admin edit to `processing` lands. -/
theorem orderTerminal_amended_witness :
    (findUser c7db 9 = some ⟨9, .admin⟩ ∧
      c7db.orders.find? (fun o => o.id == 10) = some c7order ∧
      (c7order.status = .delivered ∨ c7order.status = .cancelled) ∧
      OrderStatus.ofValue (pyLower "processing") = some .processing) ∧
    orderDelete c7db 9 10 = .error .cannotCancelStatus ∧
    (∃ db', orderStatusPut c7db 9 10 "processing" = .ok db' ∧
      { c7order with status := OrderStatus.processing } ∈ db'.orders) :=
  ⟨⟨by decide, by decide, by decide, by decide⟩,
    (orderTerminal_cancel_rejected_admin_edit_accepted c7db 9 10 ⟨9, .admin⟩ c7order
      .processing "processing" (by decide) (by decide) (by decide) (by decide) (by decide)).1,
    (orderTerminal_cancel_rejected_admin_edit_accepted c7db 9 10 ⟨9, .admin⟩ c7order
      .processing "processing" (by decide) (by decide) (by decide) (by decide) (by decide)).2⟩

/-! ## Claim C1: staff payment verification -/

def c1db : DB :=
  { users := [⟨1, .customer⟩, ⟨9, .admin⟩], products := [],
    orders := [⟨10, some 1, 10, .pending, 3000, none, none, none⟩],
    order_items := [], payments := [⟨300, 10, "AB12CD34", 3000, .pending, "0712345678"⟩],
    images := [], nextId := 400 }

/-- C1 fails on the code: `PaymentVerificationResource.put` can never
complete.  `PaymentStatus("verified")` raises `ValueError` (the enum has no
such value), so `"verified"` yields the 400 `invalidStatusValue`; and for any
parseable status value the check against `PaymentStatus.VERIFIED` /
`PaymentStatus.REJECTED` raises `AttributeError`, yielding the rolled-back
500.  Every call errors, so no order is ever confirmed, no `approved_by`
recorded, and no payment leaves `pending` through this endpoint. -/
theorem paymentVerify_never_succeeds :
    (∀ (db : DB) (uid paymentId : Nat) (s : String),
      ∃ e, paymentVerifyPut db uid paymentId s = .error e) ∧
    paymentVerifyPut c1db 9 300 "verified" = .error .invalidStatusValue := by
  constructor
  · intro db uid pid s
    unfold paymentVerifyPut
    cases hu : findUser db uid with
    | none => exact ⟨_, rfl⟩
    | some u =>
      dsimp only
      by_cases hr : u.role ≠ UserRole.admin
      · rw [if_pos hr]; exact ⟨_, rfl⟩
      rw [if_neg hr]
      cases hp : db.payments.find? (fun p => p.id == pid) with
      | none => exact ⟨_, rfl⟩
      | some payment =>
        dsimp only
        cases hs : PaymentStatus.ofValue (pyLower s) with
        | none => exact ⟨_, rfl⟩
        | some st =>
          dsimp only
          exact ⟨.internalError, rfl⟩
  · decide

/-! ## Claim C6: duplicate payment submission -/

/-- C6 fails on the code as stated: when any payment already exists for the
order, line 142 of payment.py evaluates
`existing_payment.status == PaymentStatus.VERIFIED`, whose attribute access
raises `AttributeError`; the outer handler rolls back and returns the generic
500, not the duplicate-payment error.  No new `Payment` row is persisted
(the transaction is rolled back), but the `DuplicatePayment` responses of
lines 143 and 145 are unreachable. -/
theorem paymentPost_existing_payment_crashes (db : DB) (uid orderId : Nat)
    (user : UserRec) (order : Order) (existing : Payment) (mpesa phone : String)
    (hu : findUser db uid = some user)
    (ho : orderForUser db user orderId = some order)
    (hst : ¬(order.status = .cancelled ∨ order.status = .delivered))
    (hex : db.payments.find? (fun p => p.order_id == orderId) = some existing) :
    paymentPost db uid orderId mpesa phone = .error .internalError := by
  unfold paymentPost
  rw [hu]
  dsimp only
  rw [ho]
  dsimp only
  rw [if_neg hst, hex]
  rfl

def c6existing : Payment := ⟨300, 10, "AB12CD34", 3000, .pending, "0712345678"⟩

def c6db : DB :=
  { users := [⟨1, .customer⟩], products := [],
    orders := [⟨10, some 1, 10, .pending, 3000, none, none, none⟩],
    order_items := [], payments := [c6existing], images := [], nextId := 400 }

/-- Witness for C6: resubmitting a payment for an order that already has a
pending payment fails with the generic 500 and stores nothing. -/
theorem paymentPost_existing_payment_crashes_witness :
    (findUser c6db 1 = some ⟨1, .customer⟩ ∧
      orderForUser c6db ⟨1, .customer⟩ 10 = some ⟨10, some 1, 10, .pending, 3000, none, none, none⟩ ∧
      c6db.payments.find? (fun p => p.order_id == 10) = some c6existing) ∧
    paymentPost c6db 1 10 "ZZ99YY88" "0700000001" = .error .internalError :=
  ⟨⟨by decide, by decide, by decide⟩,
    paymentPost_existing_payment_crashes c6db 1 10 ⟨1, .customer⟩
      ⟨10, some 1, 10, .pending, 3000, none, none, none⟩ c6existing "ZZ99YY88" "0700000001"
      (by decide) (by decide) (by decide) (by decide)⟩

/-! ## Claim C8: staff image approval -/

/-- C8 fails on the code: a successful admin call to
`CustomImageApprovalResource.put` does validate the supplied product and bind
`product_id`, but it never writes `approval_status`, `approved_by` or
`approval_date` — the stored row is the old image with only `product_id`
changed, while the endpoint reports the image approved. -/
theorem imageApprove_binds_product_only (db : DB) (uid imageId pid : Nat)
    (user : UserRec) (img : CustomImage) (prod : Product)
    (hu : findUser db uid = some user) (hadmin : user.role = .admin)
    (him : db.images.find? (fun im => im.id == imageId) = some img)
    (hp : findProduct db pid = some prod) :
    ∃ db', imageApprovePut db uid imageId (some (some pid)) none = .ok db' ∧
      { img with product_id := some pid } ∈ db'.images ∧
      ({ img with product_id := some pid } : CustomImage).approval_status =
        img.approval_status ∧
      ({ img with product_id := some pid } : CustomImage).approved_by = img.approved_by ∧
      ({ img with product_id := some pid } : CustomImage).approval_date =
        img.approval_date := by
  have hmem : img ∈ db.images := List.mem_of_find?_eq_some him
  unfold imageApprovePut
  rw [hu]
  dsimp only
  have hr : ¬(user.role ≠ UserRole.admin) := by simp [hadmin]
  rw [if_neg hr, him]
  dsimp only
  rw [hp]
  dsimp only
  refine ⟨_, rfl, ?_, rfl, rfl, rfl⟩
  have := List.mem_map_of_mem
    (f := fun im => if im.id == img.id then { img with product_id := some pid } else im)
    hmem
  simpa using this

def c8img : CustomImage :=
  ⟨500, some 20, none, some 1, "uploads/a.png", some "a.png", 0, false, .pending,
    none, none, none⟩

def c8db : DB :=
  { users := [⟨9, .admin⟩], products := [⟨100, 1000, 5, true⟩], orders := [],
    order_items := [], payments := [], images := [c8img], nextId := 600 }

/-- Witness for C8: approving the pending image of `c8db` with product 100
succeeds and binds the product, yet the stored row still has
`approval_status = pending` and empty `approved_by`/`approval_date`. -/
theorem imageApprove_binds_product_only_witness :
    (findUser c8db 9 = some ⟨9, .admin⟩ ∧
      c8db.images.find? (fun im => im.id == 500) = some c8img ∧
      findProduct c8db 100 = some ⟨100, 1000, 5, true⟩ ∧
      c8img.approval_status = .pending) ∧
    (∃ db', imageApprovePut c8db 9 500 (some (some 100)) none = .ok db' ∧
      { c8img with product_id := some 100 } ∈ db'.images ∧
      ({ c8img with product_id := some 100 } : CustomImage).approval_status =
        c8img.approval_status ∧
      ({ c8img with product_id := some 100 } : CustomImage).approved_by =
        c8img.approved_by ∧
      ({ c8img with product_id := some 100 } : CustomImage).approval_date =
        c8img.approval_date) :=
  ⟨⟨by decide, by decide, by decide, by decide⟩,
    imageApprove_binds_product_only c8db 9 500 100 ⟨9, .admin⟩ c8img ⟨100, 1000, 5, true⟩
      (by decide) (by decide) (by decide) (by decide)⟩

/-! ## Claim C9: the abandoned-upload cleanup job (modelled from the spec) -/

/-- A pending image uploaded at day 0 (10 days old at day 10). -/
def c9old : CustomImage :=
  ⟨500, none, none, some 1, "uploads/old.png", some "old.png", 0, true, .pending,
    none, none, none⟩

/-- A pending image uploaded at day 9 (1 day old at day 10). -/
def c9young : CustomImage :=
  ⟨501, none, none, some 1, "uploads/young.png", some "young.png", 9, true, .pending,
    none, none, none⟩

def c9db : DB :=
  { users := [], products := [], orders := [], order_items := [], payments := [],
    images := [c9old, c9young], nextId := 600 }

/-- C9: the cleanup with a 7-day window keeps exactly the images that are not
(pending and older than 7 days); in the spec's scenario, on `c9db` at day 10
the pending image uploaded at day 0 (10 days old) is deleted while the
pending image uploaded at day 9 (1 day old) survives. -/
theorem cleanupAbandoned_deletes_only_stale_pending :
    (∀ (db : DB) (today retentionDays : Nat) (im : CustomImage),
      im ∈ (cleanupAbandoned db today retentionDays).images ↔
        im ∈ db.images ∧
          ¬(im.approval_status = .pending ∧ today - im.upload_date > retentionDays)) ∧
    (cleanupAbandoned c9db 10 7).images = [c9young] := by
  constructor
  · intro db today rd im
    unfold cleanupAbandoned
    dsimp only
    constructor
    · intro hin
      rcases List.mem_filter.1 hin with ⟨h1, h2⟩
      exact ⟨h1, of_decide_eq_true h2⟩
    · intro hkeep
      exact List.mem_filter.2 ⟨hkeep.1, decide_eq_true hkeep.2⟩
  · decide

/-- Witness for C9: the general characterisation instantiated at the young
image of the scenario. -/
theorem cleanupAbandoned_witness :
    c9young ∈ (cleanupAbandoned c9db 10 7).images ↔
      c9young ∈ c9db.images ∧
        ¬(c9young.approval_status = .pending ∧ 10 - c9young.upload_date > 7) :=
  cleanupAbandoned_deletes_only_stale_pending.1 c9db 10 7 c9young

/-! ## Claim C10: the upload operation stores no uploader reference -/

/-- C10: the `CustomImage(...)` call of the upload handler passes no
`user_id`, although the authenticated uploader's id is in scope, so the
constructed record — and hence every row a successful upload stores — carries
no uploader reference. -/
theorem imageUpload_omits_uploader :
    (∀ (oii pid : Option Nat) (url : String) (nm : Option String) (now fid : Nat),
      (newCustomImage oii pid url nm now fid).user_id = none) ∧
    (∀ (db : DB) (uid orderItemId : Nat) (pidOpt : Option Nat) (url nm : String)
      (now : Nat) (db' : DB) (iid : Nat),
      imageUploadPost db uid orderItemId pidOpt url nm now = .ok (db', iid) →
      ∃ im ∈ db'.images, im.id = iid ∧ im.user_id = none) := by
  constructor
  · intro _ _ _ _ _ _
    rfl
  · intro db uid oiid pidOpt url nm now db' iid h
    unfold imageUploadPost at h
    cases hu : findUser db uid with
    | none => rw [hu] at h; exact Except.noConfusion h
    | some user =>
      rw [hu] at h
      dsimp only at h
      cases hit : orderItemForUser db user oiid with
      | none => rw [hit] at h; exact Except.noConfusion h
      | some item =>
        rw [hit] at h
        dsimp only at h
        cases hdup : db.images.find? (fun im => im.order_item_id == some oiid) with
        | some im0 => rw [hdup] at h; exact Except.noConfusion h
        | none =>
          rw [hdup] at h
          dsimp only at h
          cases pidOpt with
          | some pid =>
            dsimp only at h
            cases hp : findProduct db pid with
            | none => rw [hp] at h; exact Except.noConfusion h
            | some prod =>
              rw [hp] at h
              dsimp only at h
              cases h
              exact ⟨_, List.mem_cons_self _ _, rfl, rfl⟩
          | none =>
            dsimp only at h
            cases h
            exact ⟨_, List.mem_cons_self _ _, rfl, rfl⟩

def c10db : DB :=
  { users := [⟨1, .customer⟩], products := [],
    orders := [⟨10, some 1, 10, .pending, 3000, none, none, none⟩],
    order_items := [⟨20, 10, 100, 1, 1000, 1000⟩],
    payments := [], images := [], nextId := 700 }

/-- Witness for C10: a successful upload by user 1 against their own order
item stores a row with `user_id = none`. -/
theorem imageUpload_omits_uploader_witness :
    imageUploadPost c10db 1 20 none "uploads/b.png" "b.png" 3 =
      .ok ({ c10db with
              images := [newCustomImage (some 20) none "uploads/b.png" (some "b.png") 3 700],
              nextId := 701 }, 700) ∧
    (∃ im ∈ ({ c10db with
        images := [newCustomImage (some 20) none "uploads/b.png" (some "b.png") 3 700],
        nextId := 701 } : DB).images, im.id = 700 ∧ im.user_id = none) :=
  ⟨by decide,
    imageUpload_omits_uploader.2 c10db 1 20 none "uploads/b.png" "b.png" 3 _ 700 (by decide)⟩

end Magnet
